import Mathlib

/-!
Verification of the change-history (undo/redo) subsystem of the
`potentecar` repository, embedded from
`src/src/utils/stockBaselineManager.ts` (class `ChangeHistoryManager`).

The manager keeps an in-memory journal (`historyStack`, `currentPosition`)
of `ChangeHistoryEntry` rows, persists each entry to a durable
`change_history` table, and can revert (`undo`) or replay (`redo`) the
entry at the cursor by issuing delete / update / insert calls against the
affected table.

Modelling conventions:
  * Row snapshots (`old_data` / `new_data`, typed `any` in the source) are
    a type parameter `Row`; absent snapshots are `Option.none`.
  * The affected tables are modelled as one lookup function
    `TableDB Row = String → String → Option Row` keyed by table name and
    row id; the storage calls `.delete().eq ...`, `.update().eq ...` and
    `.insert` become `dbDelete`, `dbUpdate`, `dbInsert`.
  * Every remote call can fail (network error, constraint violation, ...).
    Each operation therefore takes a boolean `ok` standing for the outcome
    of its single storage call; `ok = false` corresponds to the backend
    returning an error, in which case the backend state is unchanged and
    the source code path goes through `throw` / `catch`.
  * Timestamps are `Nat` (milliseconds); the ISO-string comparison used by
    the source is order-isomorphic to this for valid timestamps.
  * JavaScript idioms are embedded by dedicated helpers: `jsIndex`
    (indexing with a possibly negative index yields `undefined`),
    `jsSliceTo` (`arr.slice(0, e)` with a possibly negative `e`) and
    `jsSliceLast` (`arr.slice(-n)`).
-/

namespace ChangeHistory

/-- `operation_type` of a journal entry.  The TypeScript union type has the
three members CREATE / UPDATE / DELETE, but values reach the manager through
`any`-typed data and both `revertChange` and `applyChange` have a `default`
branch for an unrecognised tag, so the embedding keeps an `UNKNOWN` case. -/
inductive OperationType where
  | CREATE : OperationType
  | UPDATE : OperationType
  | DELETE : OperationType
  | UNKNOWN : String → OperationType
deriving DecidableEq, Repr

/-- `ChangeHistoryEntry` interface: one journaled mutation. -/
structure ChangeHistoryEntry (Row : Type) where
  id : Option String
  operation_type : OperationType
  table_name : String
  record_id : String
  old_data : Option Row
  new_data : Option Row
  description : String
  timestamp : Nat
deriving DecidableEq, Repr

/-- In-memory state of `ChangeHistoryManager`: the journal stack and the
cursor.  `currentPosition` is an `Int` because the source initialises it to
`-1` and decrements it past zero is prevented only by `canUndo`. -/
structure ManagerState (Row : Type) where
  currentPosition : Int
  historyStack : List (ChangeHistoryEntry Row)
deriving DecidableEq, Repr

/-- Field initialisers of the class: `currentPosition = -1`, empty stack. -/
def initialState (Row : Type) : ManagerState Row :=
  ⟨-1, []⟩

/-- `maxHistorySize` field initialiser. -/
def maxHistorySize : Nat := 100

/-- `canUndo()`: `this.currentPosition >= 0`. -/
def canUndo {Row : Type} (s : ManagerState Row) : Bool :=
  decide (0 ≤ s.currentPosition)

/-- `canRedo()`: `this.currentPosition < this.historyStack.length - 1`. -/
def canRedo {Row : Type} (s : ManagerState Row) : Bool :=
  decide (s.currentPosition < (s.historyStack.length : Int) - 1)

/-- The durable tables the journaled mutations act on, as a lookup from
table name and row id to the row stored there (if any). -/
def TableDB (Row : Type) : Type :=
  String → String → Option Row

/-- `.delete().eq('id', r)` on table `t`: the row disappears. -/
def dbDelete {Row : Type} (db : TableDB Row) (t r : String) : TableDB Row :=
  fun t' r' => if t' = t ∧ r' = r then none else db t' r'

/-- `.update(d).eq('id', r)` on table `t`: overwrites the row when it
exists; updating a missing row matches zero rows and is not an error. -/
def dbUpdate {Row : Type} (db : TableDB Row) (t r : String) (d : Row) :
    TableDB Row :=
  fun t' r' => if t' = t ∧ r' = r then (db t r).map (fun _ => d) else db t' r'

/-- `.insert([{...d, id: r}])` on table `t`: stores `d` under id `r` (the
spread forces the id column to `r`).  A unique-key conflict is one of the
backend failures covered by the operation's `ok = false` case. -/
def dbInsert {Row : Type} (db : TableDB Row) (t r : String) (d : Row) :
    TableDB Row :=
  fun t' r' => if t' = t ∧ r' = r then some d else db t' r'

/-- JavaScript array indexing `arr[i]` with an `Int` index: a negative
index reads a missing property and yields `undefined`. -/
def jsIndex {α : Type} (l : List α) (i : Int) : Option α :=
  if i < 0 then none else l[i.toNat]?

/-- JavaScript `arr.slice(0, e)` with an `Int` end index: a negative `e`
counts from the end of the array. -/
def jsSliceTo {α : Type} (l : List α) (e : Int) : List α :=
  l.take (if e < 0 then ((l.length : Int) + e).toNat else e.toNat)

/-- JavaScript `arr.slice(-n)`: the last `n` elements (all of them when
`n ≥ length`). -/
def jsSliceLast {α : Type} (l : List α) (n : Nat) : List α :=
  l.drop (((l.length : Int) - n).toNat)

/-- `revertChange(entry)`: issue the storage call that reverses `entry`.
Returns the boolean result together with the backend state afterwards;
`ok` is the outcome of the single storage call (`throw`/`catch` turns a
backend error into `false` with the backend unchanged). -/
def revertChange {Row : Type} (entry : ChangeHistoryEntry Row)
    (db : TableDB Row) (ok : Bool) : Bool × TableDB Row :=
  match entry.operation_type with
  | .CREATE =>
      if ok then (true, dbDelete db entry.table_name entry.record_id)
      else (false, db)
  | .UPDATE =>
      match entry.old_data with
      | none => (false, db)
      | some prior =>
          if ok then (true, dbUpdate db entry.table_name entry.record_id prior)
          else (false, db)
  | .DELETE =>
      match entry.old_data with
      | none => (false, db)
      | some prior =>
          if ok then (true, dbInsert db entry.table_name entry.record_id prior)
          else (false, db)
  | .UNKNOWN _ => (false, db)

/-- `applyChange(entry)`: issue the storage call that replays `entry`
forward, with the same conventions as `revertChange`. -/
def applyChange {Row : Type} (entry : ChangeHistoryEntry Row)
    (db : TableDB Row) (ok : Bool) : Bool × TableDB Row :=
  match entry.operation_type with
  | .CREATE =>
      match entry.new_data with
      | none => (false, db)
      | some next =>
          if ok then (true, dbInsert db entry.table_name entry.record_id next)
          else (false, db)
  | .UPDATE =>
      match entry.new_data with
      | none => (false, db)
      | some next =>
          if ok then (true, dbUpdate db entry.table_name entry.record_id next)
          else (false, db)
  | .DELETE =>
      if ok then (true, dbDelete db entry.table_name entry.record_id)
      else (false, db)
  | .UNKNOWN _ => (false, db)

/-- `undo()`.  Returns the boolean result, the manager state and the
backend state afterwards.  When the cursor points outside the stack the
source reads `undefined`, `revertChange` throws on member access, its
`catch` returns `false`, and `undo` returns `false` with nothing moved;
the `jsIndex ... = none` branch models that path. -/
def undo {Row : Type} (s : ManagerState Row) (db : TableDB Row) (ok : Bool) :
    Bool × ManagerState Row × TableDB Row :=
  if canUndo s = false then (false, s, db)
  else
    match jsIndex s.historyStack s.currentPosition with
    | none => (false, s, db)
    | some currentEntry =>
        let res := revertChange currentEntry db ok
        if res.1 then
          (true, { s with currentPosition := s.currentPosition - 1 }, res.2)
        else (false, s, res.2)

/-- `redo()`.  The source increments `this.currentPosition` first, reads
the entry now at the cursor, and decrements the cursor back when
`applyChange` fails (or when the read produced `undefined` and the member
access inside `applyChange` threw). -/
def redo {Row : Type} (s : ManagerState Row) (db : TableDB Row) (ok : Bool) :
    Bool × ManagerState Row × TableDB Row :=
  if canRedo s = false then (false, s, db)
  else
    let s1 : ManagerState Row :=
      { s with currentPosition := s.currentPosition + 1 }
    match jsIndex s1.historyStack s1.currentPosition with
    | none =>
        (false, { s1 with currentPosition := s1.currentPosition - 1 }, db)
    | some nextEntry =>
        let res := applyChange nextEntry db ok
        if res.1 then (true, s1, res.2)
        else
          (false, { s1 with currentPosition := s1.currentPosition - 1 }, res.2)

/-- `addToStack(entry)`: truncate the redoable tail when the cursor is not
at the end, push the entry, move the cursor to the new tail, then evict the
oldest entries past `maxHistorySize`. -/
def addToStack {Row : Type} (s : ManagerState Row)
    (entry : ChangeHistoryEntry Row) : ManagerState Row :=
  let stack0 :=
    if s.currentPosition < (s.historyStack.length : Int) - 1 then
      jsSliceTo s.historyStack (s.currentPosition + 1)
    else s.historyStack
  let stack1 := stack0 ++ [entry]
  if maxHistorySize < stack1.length then
    let stack2 := jsSliceLast stack1 maxHistorySize
    ⟨(stack2.length : Int) - 1, stack2⟩
  else ⟨(stack1.length : Int) - 1, stack1⟩

/-- Arguments of one `recordChange(...)` call, together with the ambient
data the source draws from its environment: `timestamp` is the
`new Date().toISOString()` taken inside the call, and `savedId` is the id
the backend generates for the inserted row (returned by
`.select().single()` and stored in the local stack). -/
structure RecordInput (Row : Type) where
  operation : OperationType
  tableName : String
  recordId : String
  oldData : Option Row
  newData : Option Row
  description : String
  timestamp : Nat
  savedId : String
deriving DecidableEq, Repr

/-- The `changeEntry` object `recordChange` builds and inserts. -/
def mkChangeEntry {Row : Type} (inp : RecordInput Row) :
    ChangeHistoryEntry Row :=
  ⟨none, inp.operation, inp.tableName, inp.recordId, inp.oldData,
    inp.newData, inp.description, inp.timestamp⟩

/-- The row as the backend returns it after the insert: the built entry
with the generated id filled in.  This is the value `addToStack` receives. -/
def savedEntry {Row : Type} (inp : RecordInput Row) :
    ChangeHistoryEntry Row :=
  { mkChangeEntry inp with id := some inp.savedId }

/-- `recordChange(...)`: insert the entry into the durable
`change_history` table (`jdb`), then add the returned row to the local
stack.  A backend error is re-thrown, so the promise rejects
(`Except.error`) and neither the local state nor the durable table
changed. -/
def recordChange {Row : Type} (s : ManagerState Row)
    (jdb : List (ChangeHistoryEntry Row)) (inp : RecordInput Row)
    (ok : Bool) :
    Except Unit Unit × ManagerState Row × List (ChangeHistoryEntry Row) :=
  if ok then
    let data := savedEntry inp
    (Except.ok (), addToStack s data, jdb ++ [data])
  else (Except.error (), s, jdb)

/-- The ordering of the `order('timestamp', { ascending: false })` clause
of `loadHistory`: rows with a larger timestamp come first. -/
def newerFirst {Row : Type} (a b : ChangeHistoryEntry Row) : Prop :=
  b.timestamp ≤ a.timestamp

instance {Row : Type} : DecidableRel (@newerFirst Row) :=
  fun a b => inferInstanceAs (Decidable (b.timestamp ≤ a.timestamp))

/-- The rows the `loadHistory` query returns: the durable table ordered by
timestamp descending, limited to `limit` rows.  (Which stable sort the
backend uses is unobservable; any sort satisfying the order-by clause
models it.) -/
def queryRecent {Row : Type} (jdb : List (ChangeHistoryEntry Row))
    (limit : Nat) : List (ChangeHistoryEntry Row) :=
  (List.insertionSort newerFirst jdb).take limit

/-- `loadHistory(limit)`: on success replaces the stack with the query
result reversed into chronological order and puts the cursor at the new
tail; `data.reverse()` mutates in place, so the returned array is the
reversed one.  On a backend error the catch returns `[]` with the local
state untouched. -/
def loadHistory {Row : Type} (s : ManagerState Row)
    (jdb : List (ChangeHistoryEntry Row)) (limit : Nat) (ok : Bool) :
    ManagerState Row × List (ChangeHistoryEntry Row) :=
  if ok then
    let stack := (queryRecent jdb limit).reverse
    (⟨(stack.length : Int) - 1, stack⟩, stack)
  else (s, [])

/-- Milliseconds per day: `cutoffDate.setDate(getDate() - daysToKeep)`
moves the cutoff back `daysToKeep` whole days. -/
def msPerDay : Nat := 86400000

/-- `clearOldHistory(daysToKeep)`: delete the durable rows whose timestamp
is strictly below `now` minus `daysToKeep` days.  The local state is never
touched, and a backend error is caught and swallowed (no error escapes:
the codomain has no error component). -/
def clearOldHistory {Row : Type} (s : ManagerState Row)
    (jdb : List (ChangeHistoryEntry Row)) (now daysToKeep : Nat)
    (ok : Bool) : ManagerState Row × List (ChangeHistoryEntry Row) :=
  let cutoff := now - daysToKeep * msPerDay
  if ok then (s, jdb.filter (fun e => decide (¬ e.timestamp < cutoff)))
  else (s, jdb)

/-- The *reversal* of a journal entry as the spec words it: Create →
delete the row by record id; Update → overwrite the row with the prior
state; Delete → re-insert the prior state under the record id.  `none`
when the reversal is impossible (missing snapshot or unknown kind). -/
def specReversal {Row : Type} (entry : ChangeHistoryEntry Row)
    (db : TableDB Row) : Option (TableDB Row) :=
  match entry.operation_type with
  | .CREATE => some (dbDelete db entry.table_name entry.record_id)
  | .UPDATE =>
      entry.old_data.map (fun p => dbUpdate db entry.table_name entry.record_id p)
  | .DELETE =>
      entry.old_data.map (fun p => dbInsert db entry.table_name entry.record_id p)
  | .UNKNOWN _ => none

/-- The *forward effect* of a journal entry as the spec words it: Create →
insert the new state; Update → overwrite with the new state; Delete →
delete by record id.  `none` when it is impossible. -/
def specForward {Row : Type} (entry : ChangeHistoryEntry Row)
    (db : TableDB Row) : Option (TableDB Row) :=
  match entry.operation_type with
  | .CREATE =>
      entry.new_data.map (fun n => dbInsert db entry.table_name entry.record_id n)
  | .UPDATE =>
      entry.new_data.map (fun n => dbUpdate db entry.table_name entry.record_id n)
  | .DELETE => some (dbDelete db entry.table_name entry.record_id)
  | .UNKNOWN _ => none

/-- Claim C1: `undo()` is a no-op returning failure when `canUndo()` is
false; otherwise it takes the record at `currentPosition` and applies its
reversal (Create: delete by record id; Update: overwrite with the prior
state; Delete: re-insert the prior state) — on success the cursor is
decremented, and on any failed reversal (backend error or impossible
reversal) the cursor and the backend are unchanged and failure is
reported. -/
theorem undo_matches_spec {Row : Type} (s : ManagerState Row)
    (db : TableDB Row) (ok : Bool) :
    (canUndo s = false → undo s db ok = (false, s, db)) ∧
    (∀ entry, canUndo s = true →
      jsIndex s.historyStack s.currentPosition = some entry →
      (∀ db', specReversal entry db = some db' → ok = true →
        undo s db ok = (true, ⟨s.currentPosition - 1, s.historyStack⟩, db')) ∧
      (specReversal entry db = none ∨ ok = false →
        undo s db ok = (false, s, db))) := by
  constructor
  · intro h
    simp [undo, h]
  · intro entry hcan hget
    constructor
    · intro db' hspec hok
      subst hok
      unfold undo
      rw [hcan]
      simp only [Bool.true_eq_false, if_false, hget]
      cases entry with
      | mk id op tn ri od nd de ts =>
        cases op <;> cases od <;> simp_all [specReversal, revertChange]
    · intro hfail
      unfold undo
      rw [hcan]
      simp only [Bool.true_eq_false, if_false, hget]
      cases entry with
      | mk id op tn ri od nd de ts =>
        rcases hfail with hnone | hok
        · cases op <;> cases od <;> simp_all [specReversal, revertChange]
        · subst hok
          cases op <;> cases od <;> simp [revertChange]

/-- Claim C1 witness: an undoable Update entry with a prior snapshot, at a
state where the backend succeeds. -/
theorem undo_matches_spec_witness :
    undo (⟨0, [⟨some "h1", .UPDATE, "clients", "c1", some 7, some 9, "d", 5⟩]⟩ :
        ManagerState Nat)
      (fun _ _ => some 9) true =
      (true, ⟨-1, [⟨some "h1", .UPDATE, "clients", "c1", some 7, some 9, "d", 5⟩]⟩,
        dbUpdate (fun _ _ => some 9) "clients" "c1" 7) := by
  exact ((undo_matches_spec _ _ true).2
    ⟨some "h1", .UPDATE, "clients", "c1", some 7, some 9, "d", 5⟩
    (by decide) (by simp [jsIndex])).1
    (dbUpdate (fun _ _ => some 9) "clients" "c1" 7) (by simp [specReversal]) rfl

/-- Claim C2: `redo()` is a no-op returning failure when `canRedo()` is
false; otherwise it tentatively increments the cursor, applies the forward
effect of the record now at that position (Create: insert the new state;
Update: overwrite with the new state; Delete: delete by record id), and on
any failure rolls the cursor back so the state is unchanged from before
the call. -/
theorem redo_matches_spec {Row : Type} (s : ManagerState Row)
    (db : TableDB Row) (ok : Bool) :
    (canRedo s = false → redo s db ok = (false, s, db)) ∧
    (∀ entry, canRedo s = true →
      jsIndex s.historyStack (s.currentPosition + 1) = some entry →
      (∀ db', specForward entry db = some db' → ok = true →
        redo s db ok = (true, ⟨s.currentPosition + 1, s.historyStack⟩, db')) ∧
      (specForward entry db = none ∨ ok = false →
        redo s db ok = (false, s, db))) := by
  constructor
  · intro h
    simp [redo, h]
  · intro entry hcan hget
    have hs : (⟨s.currentPosition + 1 - 1, s.historyStack⟩ : ManagerState Row) = s := by
      have : s.currentPosition + 1 - 1 = s.currentPosition := by omega
      rw [this]
    constructor
    · intro db' hspec hok
      subst hok
      unfold redo
      rw [hcan]
      simp only [Bool.true_eq_false, if_false, hget]
      cases entry with
      | mk id op tn ri od nd de ts =>
        cases op <;> cases nd <;> simp_all [specForward, applyChange]
    · intro hfail
      unfold redo
      rw [hcan]
      simp only [Bool.true_eq_false, if_false, hget]
      cases entry with
      | mk id op tn ri od nd de ts =>
        rcases hfail with hnone | hok
        · cases op <;> cases nd <;> simp_all [specForward, applyChange, hs]
        · subst hok
          cases op <;> cases nd <;> simp [applyChange, hs]

/-- Claim C2 witness: a redoable Delete entry replayed forward with the
backend succeeding. -/
theorem redo_matches_spec_witness :
    redo (⟨-1, [⟨some "h2", .DELETE, "stock_items", "s9", some 5, none, "d", 3⟩]⟩ :
        ManagerState Nat)
      (fun _ _ => some 5) true =
      (true, ⟨0, [⟨some "h2", .DELETE, "stock_items", "s9", some 5, none, "d", 3⟩]⟩,
        dbDelete (fun _ _ => some 5) "stock_items" "s9") := by
  exact ((redo_matches_spec _ _ true).2
    ⟨some "h2", .DELETE, "stock_items", "s9", some 5, none, "d", 3⟩
    (by decide) (by simp [jsIndex])).1
    (dbDelete (fun _ _ => some 5) "stock_items" "s9") (by simp [specForward]) rfl

/-- Claim C3: `recordChange` persists the entry to the durable table
before acknowledging (on success the saved row is in the durable table and
the promise resolves), and on persistence failure the promise rejects and
both the in-memory journal and the cursor are exactly as before the
call. -/
theorem recordChange_atomic {Row : Type} (s : ManagerState Row)
    (jdb : List (ChangeHistoryEntry Row)) (inp : RecordInput Row) :
    recordChange s jdb inp false = (Except.error (), s, jdb) ∧
    (recordChange s jdb inp true).1 = Except.ok () ∧
    savedEntry inp ∈ (recordChange s jdb inp true).2.2 ∧
    (recordChange s jdb inp true).2.2 = jdb ++ [savedEntry inp] ∧
    (recordChange s jdb inp true).2.1 = addToStack s (savedEntry inp) := by
  refine ⟨rfl, rfl, ?_, rfl, rfl⟩
  simp [recordChange]

/-- After `addToStack` the cursor sits at the new tail of the stack, so
nothing is redoable. -/
theorem addToStack_tail {Row : Type} (s : ManagerState Row)
    (e : ChangeHistoryEntry Row) :
    (addToStack s e).currentPosition =
      ((addToStack s e).historyStack.length : Int) - 1 ∧
    canRedo (addToStack s e) = false := by
  have h1 : (addToStack s e).currentPosition =
      ((addToStack s e).historyStack.length : Int) - 1 := by
    unfold addToStack
    dsimp only
    split <;> split <;> rfl
  refine ⟨h1, ?_⟩
  simp only [canRedo, h1, decide_eq_false_iff_not]
  omega

/-- Claim C4: when the cursor is not at the tail, a successful
`recordChange` truncates the stack to the entries up to the cursor
(possibly evicting oldest entries past the cap, hence the `drop k`),
appends the new entry, puts the cursor at the new tail, and `canRedo()` is
false immediately afterwards. -/
theorem record_discards_redo {Row : Type} (s : ManagerState Row)
    (jdb : List (ChangeHistoryEntry Row)) (inp : RecordInput Row)
    (hlo : -1 ≤ s.currentPosition)
    (hmid : s.currentPosition < (s.historyStack.length : Int) - 1) :
    ∃ k, (recordChange s jdb inp true).2.1.historyStack =
        ((s.historyStack.take (s.currentPosition + 1).toNat).drop k)
          ++ [savedEntry inp] ∧
      (recordChange s jdb inp true).2.1.currentPosition =
        ((recordChange s jdb inp true).2.1.historyStack.length : Int) - 1 ∧
      canRedo (recordChange s jdb inp true).2.1 = false := by
  have hrec : (recordChange s jdb inp true).2.1 = addToStack s (savedEntry inp) :=
    rfl
  obtain ⟨hpos, hred⟩ := addToStack_tail s (savedEntry inp)
  rw [hrec]
  have ht : jsSliceTo s.historyStack (s.currentPosition + 1) =
      s.historyStack.take (s.currentPosition + 1).toNat := by
    unfold jsSliceTo
    rw [if_neg (by omega)]
  have hmax : maxHistorySize = 100 := rfl
  set t := s.historyStack.take (s.currentPosition + 1).toNat with htdef
  by_cases hlen : maxHistorySize < t.length + 1
  · refine ⟨t.length + 1 - maxHistorySize, ?_, hpos, hred⟩
    unfold addToStack jsSliceLast
    rw [if_pos hmid, ht]
    dsimp only
    rw [if_pos (by simpa using hlen)]
    have hd : (((t ++ [savedEntry inp]).length : Int) - maxHistorySize).toNat =
        t.length + 1 - maxHistorySize := by
      simp only [List.length_append, List.length_singleton]
      omega
    rw [hd, List.drop_append_of_le_length (by omega)]
  · refine ⟨0, ?_, hpos, hred⟩
    unfold addToStack
    rw [if_pos hmid, ht]
    dsimp only
    rw [if_neg (by simpa using hlen)]
    simp

/-- Claim C4 witness: a two-entry journal with the cursor on the first
entry; recording discards the second entry. -/
theorem record_discards_redo_witness :
    ∃ k, (recordChange
        (⟨0, [⟨some "a", .CREATE, "t", "r1", none, some 1, "d1", 1⟩,
              ⟨some "b", .CREATE, "t", "r2", none, some 2, "d2", 2⟩]⟩ :
          ManagerState Nat) [] ⟨.CREATE, "t", "r3", none, some 3, "d3", 3, "c"⟩
        true).2.1.historyStack =
      (([⟨some "a", .CREATE, "t", "r1", none, some 1, "d1", 1⟩,
         ⟨some "b", .CREATE, "t", "r2", none, some 2, "d2", 2⟩] :
          List (ChangeHistoryEntry Nat)).take ((0 : Int) + 1).toNat).drop k
        ++ [savedEntry ⟨.CREATE, "t", "r3", none, some 3, "d3", 3, "c"⟩] ∧
      (recordChange
        (⟨0, [⟨some "a", .CREATE, "t", "r1", none, some 1, "d1", 1⟩,
              ⟨some "b", .CREATE, "t", "r2", none, some 2, "d2", 2⟩]⟩ :
          ManagerState Nat) [] ⟨.CREATE, "t", "r3", none, some 3, "d3", 3, "c"⟩
        true).2.1.currentPosition =
        (((recordChange
        (⟨0, [⟨some "a", .CREATE, "t", "r1", none, some 1, "d1", 1⟩,
              ⟨some "b", .CREATE, "t", "r2", none, some 2, "d2", 2⟩]⟩ :
          ManagerState Nat) [] ⟨.CREATE, "t", "r3", none, some 3, "d3", 3, "c"⟩
        true).2.1.historyStack.length : Int) - 1) ∧
      canRedo (recordChange
        (⟨0, [⟨some "a", .CREATE, "t", "r1", none, some 1, "d1", 1⟩,
              ⟨some "b", .CREATE, "t", "r2", none, some 2, "d2", 2⟩]⟩ :
          ManagerState Nat) [] ⟨.CREATE, "t", "r3", none, some 3, "d3", 3, "c"⟩
        true).2.1 = false := by
  exact record_discards_redo _ _ _ (by decide) (by decide)

/-- Computation rule: a successful reversal makes `undo` report success
and decrement the cursor. -/
theorem undo_eq_success {Row : Type} (s : ManagerState Row)
    (db db' : TableDB Row) (ok : Bool) (entry : ChangeHistoryEntry Row)
    (hcan : canUndo s = true)
    (hget : jsIndex s.historyStack s.currentPosition = some entry)
    (hrev : revertChange entry db ok = (true, db')) :
    undo s db ok = (true, ⟨s.currentPosition - 1, s.historyStack⟩, db') := by
  unfold undo
  rw [hcan]
  simp [hget, hrev]

/-- Computation rule: a successful forward replay makes `redo` report
success and leave the cursor incremented. -/
theorem redo_eq_success {Row : Type} (s : ManagerState Row)
    (db db' : TableDB Row) (ok : Bool) (entry : ChangeHistoryEntry Row)
    (hcan : canRedo s = true)
    (hget : jsIndex s.historyStack (s.currentPosition + 1) = some entry)
    (happ : applyChange entry db ok = (true, db')) :
    redo s db ok = (true, ⟨s.currentPosition + 1, s.historyStack⟩, db') := by
  unfold redo
  rw [hcan]
  simp [hget, happ]

/-- The hypothesis of the round-trip property: the snapshots the journal
entry carries agree with what the affected table currently holds (the
entry was the latest mutation of that row and is present where the cursor
says it is). -/
def snapshotsMatch {Row : Type} (entry : ChangeHistoryEntry Row)
    (db : TableDB Row) : Prop :=
  match entry.operation_type with
  | .CREATE => ∃ n, entry.new_data = some n ∧
      db entry.table_name entry.record_id = some n
  | .UPDATE => (∃ p, entry.old_data = some p) ∧
      ∃ n, entry.new_data = some n ∧
        db entry.table_name entry.record_id = some n
  | .DELETE => (∃ p, entry.old_data = some p) ∧
      db entry.table_name entry.record_id = none
  | .UNKNOWN _ => False

/-- Claim C5: for a journal entry whose snapshots match the current table
state, `undo()` immediately followed by `redo()` succeeds and restores the
affected row to the exact state it had before the `undo()`, for all three
operation kinds; the cursor also returns to its old position. -/
theorem undo_redo_roundtrip {Row : Type} (s : ManagerState Row)
    (db : TableDB Row) (entry : ChangeHistoryEntry Row)
    (h0 : 0 ≤ s.currentPosition)
    (hget : jsIndex s.historyStack s.currentPosition = some entry)
    (hmatch : snapshotsMatch entry db) :
    (undo s db true).1 = true ∧
    (redo (undo s db true).2.1 (undo s db true).2.2 true).1 = true ∧
    (redo (undo s db true).2.1 (undo s db true).2.2 true).2.2
        entry.table_name entry.record_id =
      db entry.table_name entry.record_id ∧
    (redo (undo s db true).2.1 (undo s db true).2.2 true).2.1 = s := by
  have hcan : canUndo s = true := by
    simp [canUndo, h0]
  have hlt : s.currentPosition < (s.historyStack.length : Int) := by
    unfold jsIndex at hget
    rw [if_neg (by omega)] at hget
    have hl := (List.getElem?_eq_some_iff.mp hget).1
    omega
  have e1 : s.currentPosition - 1 + 1 = s.currentPosition := by omega
  have hcanr : ∀ db1 : TableDB Row,
      canRedo ((⟨s.currentPosition - 1, s.historyStack⟩ : ManagerState Row)) = true := by
    intro _
    simp only [canRedo, decide_eq_true_eq]
    omega
  have hget1 : jsIndex s.historyStack (s.currentPosition - 1 + 1) = some entry := by
    rw [e1]
    exact hget
  obtain ⟨id, op, tn, ri, od, nd, de, ts⟩ := entry
  cases op with
  | CREATE =>
      obtain ⟨n, hn, hdbn⟩ := hmatch
      simp only at hn hdbn
      have hrev : revertChange ⟨id, .CREATE, tn, ri, od, nd, de, ts⟩ db true =
          (true, dbDelete db tn ri) := by
        simp [revertChange]
      have hu := undo_eq_success s db (dbDelete db tn ri) true _ hcan hget hrev
      have happ : applyChange ⟨id, .CREATE, tn, ri, od, nd, de, ts⟩
          (dbDelete db tn ri) true = (true, dbInsert (dbDelete db tn ri) tn ri n) := by
        simp [applyChange, hn]
      have hr := redo_eq_success ⟨s.currentPosition - 1, s.historyStack⟩
        (dbDelete db tn ri) (dbInsert (dbDelete db tn ri) tn ri n) true _
        (hcanr db) hget1 happ
      rw [hu]
      simp only
      rw [hr]
      refine ⟨by simp, by simp, by simp [dbInsert, hdbn], by rw [e1]⟩
  | UPDATE =>
      obtain ⟨⟨p, hp⟩, n, hn, hdbn⟩ := hmatch
      simp only at hp hn hdbn
      have hrev : revertChange ⟨id, .UPDATE, tn, ri, od, nd, de, ts⟩ db true =
          (true, dbUpdate db tn ri p) := by
        simp [revertChange, hp]
      have hu := undo_eq_success s db (dbUpdate db tn ri p) true _ hcan hget hrev
      have happ : applyChange ⟨id, .UPDATE, tn, ri, od, nd, de, ts⟩
          (dbUpdate db tn ri p) true =
          (true, dbUpdate (dbUpdate db tn ri p) tn ri n) := by
        simp [applyChange, hn]
      have hr := redo_eq_success ⟨s.currentPosition - 1, s.historyStack⟩
        (dbUpdate db tn ri p) (dbUpdate (dbUpdate db tn ri p) tn ri n) true _
        (hcanr db) hget1 happ
      rw [hu]
      simp only
      rw [hr]
      refine ⟨by simp, by simp, by simp [dbUpdate, hdbn], by rw [e1]⟩
  | DELETE =>
      obtain ⟨⟨p, hp⟩, hdbn⟩ := hmatch
      simp only at hp hdbn
      have hrev : revertChange ⟨id, .DELETE, tn, ri, od, nd, de, ts⟩ db true =
          (true, dbInsert db tn ri p) := by
        simp [revertChange, hp]
      have hu := undo_eq_success s db (dbInsert db tn ri p) true _ hcan hget hrev
      have happ : applyChange ⟨id, .DELETE, tn, ri, od, nd, de, ts⟩
          (dbInsert db tn ri p) true = (true, dbDelete (dbInsert db tn ri p) tn ri) := by
        simp [applyChange]
      have hr := redo_eq_success ⟨s.currentPosition - 1, s.historyStack⟩
        (dbInsert db tn ri p) (dbDelete (dbInsert db tn ri p) tn ri) true _
        (hcanr db) hget1 happ
      rw [hu]
      simp only
      rw [hr]
      refine ⟨by simp, by simp, by simp [dbDelete, hdbn], by rw [e1]⟩
  | UNKNOWN t =>
      exact absurd hmatch (by simp [snapshotsMatch])

/-- Claim C5 witness: an Update entry whose snapshots match the table. -/
theorem undo_redo_roundtrip_witness :
    (undo (⟨0, [⟨some "h", .UPDATE, "clients", "c1", some 3, some 4, "d", 1⟩]⟩ :
        ManagerState Nat) (fun _ _ => some 4) true).1 = true ∧
    (redo (undo (⟨0, [⟨some "h", .UPDATE, "clients", "c1", some 3, some 4, "d", 1⟩]⟩ :
        ManagerState Nat) (fun _ _ => some 4) true).2.1
      (undo (⟨0, [⟨some "h", .UPDATE, "clients", "c1", some 3, some 4, "d", 1⟩]⟩ :
        ManagerState Nat) (fun _ _ => some 4) true).2.2 true).1 = true ∧
    (redo (undo (⟨0, [⟨some "h", .UPDATE, "clients", "c1", some 3, some 4, "d", 1⟩]⟩ :
        ManagerState Nat) (fun _ _ => some 4) true).2.1
      (undo (⟨0, [⟨some "h", .UPDATE, "clients", "c1", some 3, some 4, "d", 1⟩]⟩ :
        ManagerState Nat) (fun _ _ => some 4) true).2.2 true).2.2 "clients" "c1" =
      (fun _ _ => some 4 : TableDB Nat) "clients" "c1" ∧
    (redo (undo (⟨0, [⟨some "h", .UPDATE, "clients", "c1", some 3, some 4, "d", 1⟩]⟩ :
        ManagerState Nat) (fun _ _ => some 4) true).2.1
      (undo (⟨0, [⟨some "h", .UPDATE, "clients", "c1", some 3, some 4, "d", 1⟩]⟩ :
        ManagerState Nat) (fun _ _ => some 4) true).2.2 true).2.1 =
      (⟨0, [⟨some "h", .UPDATE, "clients", "c1", some 3, some 4, "d", 1⟩]⟩ :
        ManagerState Nat) := by
  exact undo_redo_roundtrip _ _
    ⟨some "h", .UPDATE, "clients", "c1", some 3, some 4, "d", 1⟩
    (by decide) (by simp [jsIndex]) ⟨⟨3, rfl⟩, 4, rfl, rfl⟩

/-- A sequence of `recordChange` calls in which every durable insert
succeeds, folded over the manager state and the durable table. -/
def recordAll {Row : Type} (inps : List (RecordInput Row))
    (s : ManagerState Row) (jdb : List (ChangeHistoryEntry Row)) :
    ManagerState Row × List (ChangeHistoryEntry Row) :=
  match inps with
  | [] => (s, jdb)
  | inp :: rest =>
      recordAll rest (recordChange s jdb inp true).2.1
        (recordChange s jdb inp true).2.2

/-- When the cursor already sits at the tail, `addToStack` grows the stack
by one entry up to the eviction cap. -/
theorem addToStack_length_tail {Row : Type} (s : ManagerState Row)
    (e : ChangeHistoryEntry Row)
    (hpos : s.currentPosition = (s.historyStack.length : Int) - 1) :
    (addToStack s e).historyStack.length =
      min (s.historyStack.length + 1) maxHistorySize := by
  unfold addToStack
  have hc : ¬ (s.currentPosition < (s.historyStack.length : Int) - 1) := by omega
  rw [if_neg hc]
  dsimp only
  by_cases h : maxHistorySize < (s.historyStack ++ [e]).length
  · rw [if_pos h]
    unfold jsSliceLast
    simp only [List.length_drop, List.length_append, List.length_singleton] at h ⊢
    omega
  · rw [if_neg h]
    simp only [List.length_append, List.length_singleton] at h ⊢
    omega

/-- Tail-cursor invariant of a run of successful `recordChange` calls:
the cursor stays at the tail and the stack length is the number of
records, saturated at the cap. -/
theorem recordAll_tail_inv {Row : Type} (inps : List (RecordInput Row)) :
    ∀ (s : ManagerState Row) (jdb : List (ChangeHistoryEntry Row)),
      s.currentPosition = (s.historyStack.length : Int) - 1 →
      s.historyStack.length ≤ maxHistorySize →
      (recordAll inps s jdb).1.currentPosition =
          ((recordAll inps s jdb).1.historyStack.length : Int) - 1 ∧
      (recordAll inps s jdb).1.historyStack.length =
          min (s.historyStack.length + inps.length) maxHistorySize := by
  have hmax : maxHistorySize = 100 := rfl
  induction inps with
  | nil =>
      intro s jdb h1 h2
      refine ⟨h1, ?_⟩
      simp only [recordAll, List.length_nil]
      omega
  | cons inp rest ih =>
      intro s jdb h1 h2
      have hlen1 := addToStack_length_tail s (savedEntry inp) h1
      have hpos1 := (addToStack_tail s (savedEntry inp)).1
      have h2' : (addToStack s (savedEntry inp)).historyStack.length ≤
          maxHistorySize := by omega
      have hih := ih (addToStack s (savedEntry inp)) (jdb ++ [savedEntry inp])
        hpos1 h2'
      have hun : recordAll (inp :: rest) s jdb =
          recordAll rest (addToStack s (savedEntry inp))
            (jdb ++ [savedEntry inp]) := rfl
      rw [hun]
      obtain ⟨ha, hb⟩ := hih
      refine ⟨ha, ?_⟩
      simp only [List.length_cons]
      omega

set_option maxRecDepth 20000 in
/-- Claim C6 counterexample: 101 successful `record()` calls from a fresh
journal leave `currentPosition = 99`, not `101 - 1 = 100`, because the
eviction cap drops the oldest entry. -/
theorem recordAll_position_counterexample :
    ¬ ((recordAll
          (List.replicate 101
            (⟨.CREATE, "", "", none, some 0, "", 0, ""⟩ : RecordInput Nat))
          (initialState Nat) []).1.currentPosition =
        ((List.replicate 101
            (⟨.CREATE, "", "", none, some 0, "", 0, ""⟩ : RecordInput Nat)).length :
          Int) - 1) := by
  decide

/-- Claim C6 (amended): after `N` successful `record()` calls starting
from a fresh journal with no intervening undo, `currentPosition` equals
`min N maxHistorySize - 1` (which is `N - 1` whenever `N ≤ 100`) and
`canRedo()` is false. -/
theorem recordAll_fresh_position {Row : Type} (inps : List (RecordInput Row)) :
    (recordAll inps (initialState Row) []).1.currentPosition =
      ((min inps.length maxHistorySize : Nat) : Int) - 1 ∧
    canRedo (recordAll inps (initialState Row) []).1 = false := by
  have hmax : maxHistorySize = 100 := rfl
  have h0 : (initialState Row).historyStack.length = 0 := rfl
  obtain ⟨h1, h2⟩ := recordAll_tail_inv inps (initialState Row) []
    (by rw [h0]; rfl) (by rw [h0]; omega)
  constructor
  · rw [h1]
    omega
  · simp only [canRedo, h1, decide_eq_false_iff_not]
    omega

/-- An entry `undo` cannot revert: an Update/Delete without a prior
snapshot, or an unknown operation kind. -/
def missingForUndo {Row : Type} (entry : ChangeHistoryEntry Row) : Prop :=
  ((entry.operation_type = .UPDATE ∨ entry.operation_type = .DELETE) ∧
    entry.old_data = none) ∨ ∃ t, entry.operation_type = .UNKNOWN t

/-- An entry `redo` cannot replay: a Create/Update without a new-state
snapshot, or an unknown operation kind. -/
def missingForRedo {Row : Type} (entry : ChangeHistoryEntry Row) : Prop :=
  ((entry.operation_type = .CREATE ∨ entry.operation_type = .UPDATE) ∧
    entry.new_data = none) ∨ ∃ t, entry.operation_type = .UNKNOWN t

/-- Claim C7: undoing an Update/Delete entry whose prior snapshot is
absent, redoing a Create/Update entry whose new snapshot is absent, or
undoing/redoing an entry of unknown operation kind, returns failure and
leaves the cursor, the in-memory journal and the backend unchanged. -/
theorem missing_snapshot_fails {Row : Type} (s : ManagerState Row)
    (db : TableDB Row) (ok : Bool) (entry : ChangeHistoryEntry Row) :
    (jsIndex s.historyStack s.currentPosition = some entry →
      missingForUndo entry → undo s db ok = (false, s, db)) ∧
    (jsIndex s.historyStack (s.currentPosition + 1) = some entry →
      missingForRedo entry → redo s db ok = (false, s, db)) := by
  have hs : (⟨s.currentPosition + 1 - 1, s.historyStack⟩ : ManagerState Row) = s := by
    have e1 : s.currentPosition + 1 - 1 = s.currentPosition := by omega
    rw [e1]
  constructor
  · intro hget hmiss
    have hrev : revertChange entry db ok = (false, db) := by
      obtain ⟨id, op, tn, ri, od, nd, de, ts⟩ := entry
      rcases hmiss with ⟨hop, hod⟩ | ⟨t, hop⟩
      · simp only at hod
        subst hod
        rcases hop with h | h <;> simp only at h <;> subst h <;>
          simp [revertChange]
      · simp only at hop
        subst hop
        simp [revertChange]
    by_cases hcan : canUndo s = false
    · simp [undo, hcan]
    · have hcan' : canUndo s = true := by
        revert hcan
        cases canUndo s <;> simp
      unfold undo
      rw [hcan']
      simp [hget, hrev]
  · intro hget hmiss
    have happ : applyChange entry db ok = (false, db) := by
      obtain ⟨id, op, tn, ri, od, nd, de, ts⟩ := entry
      rcases hmiss with ⟨hop, hnd⟩ | ⟨t, hop⟩
      · simp only at hnd
        subst hnd
        rcases hop with h | h <;> simp only at h <;> subst h <;>
          simp [applyChange]
      · simp only at hop
        subst hop
        simp [applyChange]
    by_cases hcan : canRedo s = false
    · simp [redo, hcan]
    · have hcan' : canRedo s = true := by
        revert hcan
        cases canRedo s <;> simp
      unfold redo
      rw [hcan']
      simp [hget, happ, hs]

/-- Claim C7 witness: an Update entry with no prior snapshot fails to
undo, and a Create entry with no new snapshot fails to redo, both leaving
everything unchanged. -/
theorem missing_snapshot_fails_witness :
    undo (⟨0, [⟨some "u", .UPDATE, "t", "r", none, some 1, "d", 0⟩]⟩ :
        ManagerState Nat) (fun _ _ => none) true =
      (false, ⟨0, [⟨some "u", .UPDATE, "t", "r", none, some 1, "d", 0⟩]⟩,
        fun _ _ => none) ∧
    redo (⟨-1, [⟨some "c", .CREATE, "t", "r", none, none, "d", 0⟩]⟩ :
        ManagerState Nat) (fun _ _ => none) true =
      (false, ⟨-1, [⟨some "c", .CREATE, "t", "r", none, none, "d", 0⟩]⟩,
        fun _ _ => none) := by
  constructor
  · exact (missing_snapshot_fails _ _ true
      ⟨some "u", .UPDATE, "t", "r", none, some 1, "d", 0⟩).1
      (by simp [jsIndex]) (Or.inl ⟨Or.inl rfl, rfl⟩)
  · exact (missing_snapshot_fails _ _ true
      ⟨some "c", .CREATE, "t", "r", none, none, "d", 0⟩).2
      (by simp [jsIndex]) (Or.inl ⟨Or.inl rfl, rfl⟩)

/-- The cursor invariant of the journal:
`-1 <= currentPosition < historyStack.length`. -/
def Inv {Row : Type} (s : ManagerState Row) : Prop :=
  -1 ≤ s.currentPosition ∧ s.currentPosition < (s.historyStack.length : Int)

/-- `undo` either leaves the manager state unchanged or, when undoing was
possible, moves the cursor one step back on the unchanged stack. -/
theorem undo_state_cases {Row : Type} (s : ManagerState Row)
    (db : TableDB Row) (ok : Bool) :
    (undo s db ok).2.1 = s ∨
      (canUndo s = true ∧
        (undo s db ok).2.1 = ⟨s.currentPosition - 1, s.historyStack⟩) := by
  unfold undo
  by_cases hcan : canUndo s = false
  · simp [hcan]
  · have hcan' : canUndo s = true := by
      revert hcan
      cases canUndo s <;> simp
    rw [hcan']
    simp only [Bool.true_eq_false, if_false]
    cases hj : jsIndex s.historyStack s.currentPosition with
    | none => simp
    | some e =>
        dsimp only
        by_cases hr : (revertChange e db ok).1 = true
        · rw [if_pos hr]
          exact Or.inr ⟨by simp [hcan'], rfl⟩
        · rw [if_neg hr]
          exact Or.inl rfl

/-- `redo` either leaves the manager state unchanged or, when redoing was
possible, moves the cursor one step forward on the unchanged stack. -/
theorem redo_state_cases {Row : Type} (s : ManagerState Row)
    (db : TableDB Row) (ok : Bool) :
    (redo s db ok).2.1 = s ∨
      (canRedo s = true ∧
        (redo s db ok).2.1 = ⟨s.currentPosition + 1, s.historyStack⟩) := by
  have hs : (⟨s.currentPosition + 1 - 1, s.historyStack⟩ : ManagerState Row) = s := by
    have e1 : s.currentPosition + 1 - 1 = s.currentPosition := by omega
    rw [e1]
  unfold redo
  by_cases hcan : canRedo s = false
  · simp [hcan]
  · have hcan' : canRedo s = true := by
      revert hcan
      cases canRedo s <;> simp
    rw [hcan']
    simp only [Bool.true_eq_false, if_false]
    cases hj : jsIndex s.historyStack (s.currentPosition + 1) with
    | none => simp [hs]
    | some e =>
        dsimp only
        by_cases hr : (applyChange e db ok).1 = true
        · rw [if_pos hr]
          exact Or.inr ⟨by simp [hcan'], rfl⟩
        · rw [if_neg hr]
          exact Or.inl hs

/-- `addToStack` always leaves the cursor at the tail of a nonempty
stack, so the cursor invariant holds afterwards unconditionally. -/
theorem addToStack_inv {Row : Type} (s : ManagerState Row)
    (e : ChangeHistoryEntry Row) : Inv (addToStack s e) := by
  have h := (addToStack_tail s e).1
  unfold Inv
  constructor <;> omega

/-- Claim C8: the invariant `-1 <= currentPosition < journal.length`
(with `currentPosition = -1` exactly when nothing is undoable) holds in
the initial state and is preserved by `recordChange`, `undo`, `redo`,
`loadHistory` and `clearOldHistory`, in success and failure outcomes
alike. -/
theorem invariant_preserved (Row : Type) :
    Inv (initialState Row) ∧
    (∀ s : ManagerState Row, Inv s →
      (s.currentPosition = -1 ↔ canUndo s = false)) ∧
    (∀ (s : ManagerState Row) jdb inp ok, Inv s →
      Inv (recordChange s jdb inp ok).2.1) ∧
    (∀ (s : ManagerState Row) (db : TableDB Row) ok, Inv s →
      Inv (undo s db ok).2.1) ∧
    (∀ (s : ManagerState Row) (db : TableDB Row) ok, Inv s →
      Inv (redo s db ok).2.1) ∧
    (∀ (s : ManagerState Row) jdb limit ok, Inv s →
      Inv (loadHistory s jdb limit ok).1) ∧
    (∀ (s : ManagerState Row) jdb now days ok, Inv s →
      Inv (clearOldHistory s jdb now days ok).1) := by
  refine ⟨⟨by norm_num [initialState], by norm_num [initialState]⟩, ?_, ?_, ?_, ?_, ?_, ?_⟩
  · intro s hs
    obtain ⟨h1, h2⟩ := hs
    simp only [canUndo, decide_eq_false_iff_not]
    constructor
    · intro h
      omega
    · intro h
      omega
  · intro s jdb inp ok hs
    cases ok
    · exact hs
    · exact addToStack_inv s (savedEntry inp)
  · intro s db ok hs
    rcases undo_state_cases s db ok with h | ⟨hcan, h⟩
    · rw [h]
      exact hs
    · rw [h]
      obtain ⟨h1, h2⟩ := hs
      simp only [canUndo, decide_eq_true_eq] at hcan
      unfold Inv
      dsimp only
      constructor <;> omega
  · intro s db ok hs
    rcases redo_state_cases s db ok with h | ⟨hcan, h⟩
    · rw [h]
      exact hs
    · rw [h]
      obtain ⟨h1, h2⟩ := hs
      simp only [canRedo, decide_eq_true_eq] at hcan
      unfold Inv
      dsimp only
      constructor <;> omega
  · intro s jdb limit ok hs
    cases ok
    · exact hs
    · have h : (loadHistory s jdb limit true).1 =
          ⟨(((queryRecent jdb limit).reverse.length : Int) - 1),
            (queryRecent jdb limit).reverse⟩ := rfl
      rw [h]
      unfold Inv
      dsimp only
      constructor <;> omega
  · intro s jdb now days ok hs
    cases ok
    · exact hs
    · exact hs

/-- Claim C8 witness: the invariant after an `undo` from a singleton
journal with the cursor on its only entry. -/
theorem invariant_preserved_witness :
    Inv ((undo (⟨0, [⟨some "w", .CREATE, "t", "r", none, some 1, "d", 0⟩]⟩ :
        ManagerState Nat) (fun _ _ => some 1) true).2.1) := by
  exact (invariant_preserved Nat).2.2.2.1
    ⟨0, [⟨some "w", .CREATE, "t", "r", none, some 1, "d", 0⟩]⟩
    (fun _ _ => some 1) true ⟨by norm_num, by norm_num⟩

/-- Claim C9: `clearOldHistory(daysToKeep)` never touches the in-memory
journal or cursor (in success and failure outcomes alike — failures are
swallowed, which is why its codomain carries no error), and on success
the durable table keeps exactly the rows whose timestamp is not older
than `now` minus `daysToKeep` days: every surviving row is one of the old
rows, a row survives iff it is at least as recent as the cutoff, and a
backend failure leaves the durable table unchanged. -/
theorem clearOldHistory_frame {Row : Type} (s : ManagerState Row)
    (jdb : List (ChangeHistoryEntry Row)) (now daysToKeep : Nat) :
    (∀ ok, (clearOldHistory s jdb now daysToKeep ok).1 = s) ∧
    ((clearOldHistory s jdb now daysToKeep true).2).Sublist jdb ∧
    (∀ e, e ∈ (clearOldHistory s jdb now daysToKeep true).2 ↔
      e ∈ jdb ∧ ¬ e.timestamp < now - daysToKeep * msPerDay) ∧
    (clearOldHistory s jdb now daysToKeep false).2 = jdb := by
  refine ⟨?_, ?_, ?_, rfl⟩
  · intro ok
    cases ok <;> rfl
  · simp only [clearOldHistory]
    exact List.filter_sublist jdb
  · intro e
    simp [clearOldHistory, List.mem_filter]

/-- Claim C10: after a successful `loadHistory(limit)` the cursor sits at
the tail of the reloaded stack (so `canRedo()` is false and any redo
position from before the reload is gone, whatever the previous state
was), the stack has `min limit jdb.length` entries drawn from the durable
table, it is in chronological order, and it consists of the most recent
durable entries: any durable entry left out is no newer than any entry
kept. -/
theorem loadHistory_reloads_tail {Row : Type} (s : ManagerState Row)
    (jdb : List (ChangeHistoryEntry Row)) (limit : Nat) :
    ((loadHistory s jdb limit true).1.currentPosition =
      ((loadHistory s jdb limit true).1.historyStack.length : Int) - 1) ∧
    canRedo (loadHistory s jdb limit true).1 = false ∧
    (loadHistory s jdb limit true).1.historyStack.length =
      min limit jdb.length ∧
    (loadHistory s jdb limit true).1.historyStack.Pairwise
      (fun a b => a.timestamp ≤ b.timestamp) ∧
    (∀ e ∈ (loadHistory s jdb limit true).1.historyStack, e ∈ jdb) ∧
    (∀ e ∈ jdb, e ∉ (loadHistory s jdb limit true).1.historyStack →
      ∀ f ∈ (loadHistory s jdb limit true).1.historyStack,
        e.timestamp ≤ f.timestamp) := by
  haveI htot : IsTotal (ChangeHistoryEntry Row) newerFirst :=
    ⟨fun a b => Nat.le_total b.timestamp a.timestamp⟩
  haveI htrans : IsTrans (ChangeHistoryEntry Row) newerFirst :=
    ⟨fun a b c hab hbc => Nat.le_trans hbc hab⟩
  have hperm : (List.insertionSort newerFirst jdb).Perm jdb :=
    List.perm_insertionSort newerFirst jdb
  have hsorted : (List.insertionSort newerFirst jdb).Pairwise
      (fun a b => b.timestamp ≤ a.timestamp) :=
    List.sorted_insertionSort newerFirst jdb
  have hstack : (loadHistory s jdb limit true).1.historyStack =
      ((List.insertionSort newerFirst jdb).take limit).reverse := rfl
  have hpos : (loadHistory s jdb limit true).1.currentPosition =
      ((loadHistory s jdb limit true).1.historyStack.length : Int) - 1 := rfl
  have htakesorted : ((List.insertionSort newerFirst jdb).take limit).Pairwise
      (fun a b => b.timestamp ≤ a.timestamp) :=
    List.Pairwise.sublist (List.take_sublist limit _) hsorted
  refine ⟨hpos, ?_, ?_, ?_, ?_, ?_⟩
  · simp only [canRedo, hpos, decide_eq_false_iff_not]
    omega
  · rw [hstack]
    simp [hperm.length_eq]
  · rw [hstack]
    exact List.pairwise_reverse.mpr htakesorted
  · intro e he
    rw [hstack, List.mem_reverse] at he
    exact hperm.mem_iff.mp ((List.take_sublist limit _).subset he)
  · intro e hejdb henot f hf
    rw [hstack, List.mem_reverse] at henot hf
    have hesorted : e ∈ List.insertionSort newerFirst jdb :=
      hperm.mem_iff.mpr hejdb
    have hsplit := List.take_append_drop limit (List.insertionSort newerFirst jdb)
    have hedrop : e ∈ (List.insertionSort newerFirst jdb).drop limit := by
      rcases (List.mem_append.mp (by rw [hsplit]; exact hesorted)) with h | h
      · exact absurd h henot
      · exact h
    have hpair := (List.pairwise_append.mp (by rw [hsplit]; exact hsorted)).2.2
    exact hpair f hf e hedrop

/-- A concrete older journal row used to instantiate the durable-table
theorems. -/
def wOld : ChangeHistoryEntry Nat :=
  ⟨some "a", .CREATE, "t", "r1", none, some 1, "d1", 1⟩

/-- A concrete newer journal row used to instantiate the durable-table
theorems. -/
def wNew : ChangeHistoryEntry Nat :=
  ⟨some "b", .CREATE, "t", "r2", none, some 2, "d2", 5⟩

/-- Claim C9 witness: a sweep over a two-row durable table, keeping the
membership characterisation at the older row. -/
theorem clearOldHistory_frame_witness :
    (clearOldHistory (initialState Nat) [wOld, wNew] (10 * msPerDay) 1 true).1 =
      initialState Nat ∧
    (wOld ∈ (clearOldHistory (initialState Nat) [wOld, wNew]
        (10 * msPerDay) 1 true).2 ↔
      wOld ∈ [wOld, wNew] ∧
        ¬ wOld.timestamp < 10 * msPerDay - 1 * msPerDay) := by
  exact ⟨(clearOldHistory_frame (initialState Nat) [wOld, wNew]
      (10 * msPerDay) 1).1 true,
    (clearOldHistory_frame (initialState Nat) [wOld, wNew]
      (10 * msPerDay) 1).2.2.1 wOld⟩

/-- Claim C10 witness: reloading two durable rows with limit 1 keeps only
the newer one, and the dropped older row is no newer than the kept one. -/
theorem loadHistory_reloads_tail_witness :
    wOld ∈ [wOld, wNew] ∧
    wOld ∉ (loadHistory (initialState Nat) [wOld, wNew] 1 true).1.historyStack ∧
    wNew ∈ (loadHistory (initialState Nat) [wOld, wNew] 1 true).1.historyStack ∧
    wOld.timestamp ≤ wNew.timestamp := by
  refine ⟨by decide, by decide, by decide, ?_⟩
  exact (loadHistory_reloads_tail (initialState Nat) [wOld, wNew] 1).2.2.2.2.2
    wOld (by decide) (by decide) wNew (by decide)

end ChangeHistory
